import Mathlib

/-!
# Verification of the fillstruct completion engine

Shallow embedding of the core of `fillstruct` (package `fillstruct`,
file `fillstruct.go`): the type model (`go/types`), the decorated
syntax-tree expressions (`dst`), the literal matcher, the default-value
synthesis `generateZeroValue` / `typeToExpr`, and the per-file driver
`Format`.  Machine-level concerns (the `packages.Package` loader, the
`decorator`, `format.Source`) are collaborators; the driver models the
tree walk as the ordered list of composite-literal sites it visits, and
the serialized output as the mutated list of sites.
-/

namespace Fillstruct

/-- The basic kinds of `go/types` that `generateZeroValue` distinguishes
(`types.Bool`, `types.String`, the numeric kinds, and the remaining
kinds that fall into its `default` branch, represented by
`unsafePointer`). -/
inductive BasicKind where
  | bool | string
  | int | int8 | int16 | int32 | int64
  | uint | uint8 | uint16 | uint32 | uint64 | uintptr
  | float32 | float64 | complex64 | complex128
  | unsafePointer
  deriving DecidableEq, Repr

/-- `types.Basic.Name()`, used by `typeToExpr`. -/
def BasicKind.goName : BasicKind → String
  | .bool => "bool"
  | .string => "string"
  | .int => "int"
  | .int8 => "int8"
  | .int16 => "int16"
  | .int32 => "int32"
  | .int64 => "int64"
  | .uint => "uint"
  | .uint8 => "uint8"
  | .uint16 => "uint16"
  | .uint32 => "uint32"
  | .uint64 => "uint64"
  | .uintptr => "uintptr"
  | .float32 => "float32"
  | .float64 => "float64"
  | .complex64 => "complex64"
  | .complex128 => "complex128"
  | .unsafePointer => "Pointer"

/-- The fragment of `types.Type` the engine inspects.  A named type
carries its defining package path (`Obj().Pkg().Path()`, `none` when
`Obj().Pkg()` is nil), the package's short name (`Obj().Pkg().Name()`),
the type name (`Obj().Name()`), and its underlying type
(`Underlying()`).  A struct type is its ordered field list
(name, declared type).  `other` stands for any type shape outside the
switches (it always falls into their `default` branches). -/
inductive GoType where
  | basic : BasicKind → GoType
  | pointer : GoType → GoType
  | slice : GoType → GoType
  | mapT : GoType → GoType → GoType
  | chan : GoType → GoType
  | signature : GoType
  | interfaceT : GoType
  | structT : List (String × GoType) → GoType
  | named : Option String → String → String → GoType → GoType
  | array : Nat → GoType → GoType
  | other : GoType
  deriving Repr

/-- `token.Kind` of the `dst.BasicLit` nodes the engine creates. -/
inductive LitKind where
  | int | string
  deriving DecidableEq, Repr

/-- `dst.SpaceType` decoration values. -/
inductive SpaceType where
  | noSpace | newLine | emptyLine
  deriving DecidableEq, Repr

/-- The `Before`/`After` decorations of a `dst` node
(`Decs.Before`, `Decs.After`). -/
structure Decs where
  before : SpaceType
  after : SpaceType
  deriving DecidableEq, Repr

/-- The fragment of `dst.Expr` the engine reads and writes.
`keyValue` is `dst.KeyValueExpr` together with its decorations;
`otherExpr` stands for any other expression node (a positional element,
a kept value expression of unknown shape, ...). -/
inductive Expr where
  | ident : String → Expr
  | basicLit : LitKind → String → Expr
  | keyValue : Expr → Expr → Decs → Expr
  | compositeLit : Option Expr → List Expr → Expr
  | selector : Expr → Expr → Expr
  | star : Expr → Expr
  | arrayType : Option Expr → Expr → Expr
  | otherExpr : Nat → Expr
  deriving Repr

/-- `typeToExpr`: converts a `types.Type` to a `dst.Expr` for use in
array type expressions. -/
def typeToExpr : GoType → Expr
  | .basic k => .ident k.goName
  | .named _ _ n _ => .ident n
  | .pointer e => .star (typeToExpr e)
  | .slice e => .arrayType none (typeToExpr e)
  | .array n e => .arrayType (some (.basicLit .int (toString n))) (typeToExpr e)
  | _ => .ident "interface\x7b\x7d"

/-- `generateZeroValue`: generates a zero value expression for the given
type.  `curPkgPath` is `pkg.Types.Path()` of the file being rewritten,
used to decide whether a named struct type needs package qualification. -/
def generateZeroValue (t : GoType) (curPkgPath : String) : Expr :=
  match t with
  | .basic k =>
    match k with
    | .bool => .ident "false"
    | .string => .basicLit .string "\"\""
    | .int | .int8 | .int16 | .int32 | .int64
    | .uint | .uint8 | .uint16 | .uint32 | .uint64
    | .uintptr | .float32 | .float64 | .complex64 | .complex128 =>
      .basicLit .int "0"
    | _ => .ident "nil"
  | .pointer _ | .slice _ | .mapT _ _ | .chan _ | .signature | .interfaceT =>
    .ident "nil"
  | .structT _ => .compositeLit none []
  | .named pkgPath pkgName typeName underlying =>
    match underlying with
    | .interfaceT => .ident "nil"
    | .basic b => generateZeroValue (.basic b) curPkgPath
    | _ =>
      match pkgPath with
      | some p =>
        if p ≠ curPkgPath then
          .compositeLit (some (.selector (.ident pkgName) (.ident typeName))) []
        else
          .compositeLit (some (.ident typeName)) []
      | none => .compositeLit (some (.ident typeName)) []
  | .array n e =>
    .compositeLit (some (.arrayType (some (.basicLit .int (toString n))) (typeToExpr e))) []
  | .other => .ident "nil"

/-- Whether an element is a `dst.KeyValueExpr` (the type assertion in
`isAllKeyed`). -/
def isKV : Expr → Bool
  | .keyValue _ _ _ => true
  | _ => false

/-- `isAllKeyed`: checks if all elements in the composite literal are
keyed (an empty element list is all-keyed). -/
def isAllKeyed (elts : List Expr) : Bool :=
  elts.all isKV

/-- `isExportedField`: checks if a field name is exported — the name is
non-empty and its first rune is upper case (`unicode.IsUpper` on the
rune decoded by `utf8.DecodeRuneInString`). -/
def isExportedField (name : String) : Bool :=
  match name.data with
  | [] => false
  | c :: _ => c.isUpper

/-- The key name of a keyed element whose key is a `dst.Ident`
(the double type assertion used when collecting `presentFields` and
`existingKVs`). -/
def keyOf : Expr → Option String
  | .keyValue (.ident n) _ _ => some n
  | _ => none

/-- The `presentFields` set: the key names of the keyed, ident-keyed
elements of the literal. -/
def presentNames (elts : List Expr) : List String :=
  elts.filterMap keyOf

/-- The `existingKVs` map lookup.  The Go loop writes every ident-keyed
`KeyValueExpr` into a map keyed by its name, so a later duplicate
overwrites an earlier one: the lookup returns the last matching
element. -/
def findKV (elts : List Expr) (name : String) : Option Expr :=
  elts.reverse.find? (fun e => keyOf e == some name)

/-- `sampleKV`: the first ident-keyed `KeyValueExpr` of the literal,
whose decorations new entries copy. -/
def sampleKV (elts : List Expr) : Option Expr :=
  elts.find? (fun e => (keyOf e).isSome)

/-- The decorations of an element (`kv.Decs.Before`, `kv.Decs.After`;
a non-`KeyValueExpr` node's decorations are never read, its zero value
stands in). -/
def decsOf : Expr → Decs
  | .keyValue _ _ d => d
  | _ => ⟨.noSpace, .noSpace⟩

/-- The `allFields` slice of `fieldInfo`: the exported fields of the
struct, each with its declaration index, in declaration order. -/
def allFields (fields : List (String × GoType)) : List (Nat × String × GoType) :=
  (fields.enum.filter (fun f => isExportedField f.2.1)).map (fun f => (f.1, f.2.1, f.2.2))

/-- The type switch at the head of the `dst.Inspect` closure: resolve
the literal's type to its underlying struct, unwrapping at most one
pointer indirection, and record the named type when there is one
(as its `(package path, type name)` identity). -/
def resolveStructType : GoType → Option (List (String × GoType) × Option (Option String × String))
  | .named pkgPath _ n u =>
    match u with
    | .structT fs => some (fs, some (pkgPath, n))
    | _ => none
  | .pointer (.named pkgPath _ n u) =>
    match u with
    | .structT fs => some (fs, some (pkgPath, n))
    | _ => none
  | .structT fs => some (fs, none)
  | _ => none

/-- The target-type filter: when `option.TargetTypes` is non-empty, an
anonymous struct is skipped, and a named type matches when some target
has the same package path and type name (compared by path and name,
never by pointer identity). -/
def matchesTarget (targets : List (String × String)) (namedId : Option (Option String × String)) : Bool :=
  if targets.isEmpty then true
  else
    match namedId with
    | none => false
    | some (pkgPath, n) =>
      targets.any (fun tg => pkgPath == some tg.1 && n == tg.2)

/-- One element of the rebuilt `newElts` list: the existing
`KeyValueExpr` when the field is present, otherwise a fresh keyed entry
whose value is `generateZeroValue` and whose decorations come from
`sampleKV` when one exists, else own-line (`dst.NewLine`) before and
after. -/
def rebuildElt (curPkgPath : String) (elts : List Expr) (f : Nat × String × GoType) : Expr :=
  match findKV elts f.2.1 with
  | some kv => kv
  | none =>
    .keyValue (.ident f.2.1) (generateZeroValue f.2.2 curPkgPath)
      (match sampleKV elts with
       | some s => decsOf s
       | none => ⟨.newLine, .newLine⟩)

/-- The body of the `dst.Inspect` closure for one composite-literal
site: `none` when the site is skipped or left unchanged (the closure
returns without setting `changed`), `some newElts` when the element
list is rebuilt (and `changed` is set). -/
def processLit (curPkgPath : String) (targets : List (String × String))
    (tv : GoType) (elts : List Expr) : Option (List Expr) :=
  match resolveStructType tv with
  | none => none
  | some (fields, namedId) =>
    if matchesTarget targets namedId then
      if isAllKeyed elts then
        if (allFields fields).all (fun f => (presentNames elts).contains f.2.1) then
          none
        else
          some ((allFields fields).map (rebuildElt curPkgPath elts))
      else none
    else none

/-- `FormatError` (informational; `Format` allocates the slice but
never appends to it). -/
structure FormatError where
  message : String
  posText : String
  deriving DecidableEq, Repr

/-- `FormatResult`.  `output` models the serialized bytes as the
mutated list of literal sites handed to the external
`decorator.Fprint` / `format.Source` collaborators; it is `none`
exactly when the code's `Output` is nil. -/
structure FormatResult where
  path : String
  output : Option (List (GoType × List Expr))
  errors : List FormatError
  changed : Bool
  deriving Repr

/-- One step of the tree walk: the site together with its contribution
to the `changed` flag. -/
def runSite (curPkgPath : String) (targets : List (String × String))
    (site : GoType × List Expr) : (GoType × List Expr) × Bool :=
  match processLit curPkgPath targets site.1 site.2 with
  | none => (site, false)
  | some elts => ((site.1, elts), true)

/-- `Format`: walk every composite-literal site of the file in order,
rewrite the matched ones in place, and report.  When no site changed
the result carries no output and `changed = false`; otherwise the
mutated tree is serialized (modelled as the mutated site list) and
`changed = true`. -/
def formatFile (curPkgPath : String) (targets : List (String × String))
    (path : String) (sites : List (GoType × List Expr)) : FormatResult :=
  if (sites.map (runSite curPkgPath targets)).any (fun p => p.2) then
    { path := path,
      output := some ((sites.map (runSite curPkgPath targets)).map (fun p => p.1)),
      errors := [], changed := true }
  else
    { path := path, output := none, errors := [], changed := false }

/-- Modelled from the spec: the override table (`Option.CustomDefaults`,
a map from type specifier to replacement identifier) and the
override-aware layer of the default-value policy are exercised by the
repository's tests and CLI but their implementation inside
`generateZeroValue` is not among the sources.  Per spec §4.2 rule 1,
the lookup key is the type's canonical identity `pkgPath.TypeName` for
named types, or the basic-kind name for basic kinds; other shapes have
no override key. -/
def overrideKey : GoType → Option String
  | .named (some p) _ n _ => some (p ++ "." ++ n)
  | .basic k => some k.goName
  | _ => none

/-- Modelled from the spec: `defaultFor(declaredType, overrides)` —
rule 1: if the override table contains an entry for the type's key,
emit a bare reference to the named replacement; rule 2: otherwise fall
back to structural zero-value synthesis (`generateZeroValue`). -/
def defaultFor (t : GoType) (overrides : List (String × String)) (curPkgPath : String) : Expr :=
  match overrideKey t with
  | some key =>
    match overrides.lookup key with
    | some repl => .ident repl
    | none => generateZeroValue t curPkgPath
  | none => generateZeroValue t curPkgPath

/-! ## Shared lemmas -/

/-- An expression whose `keyOf` is `some n` is a keyed entry with an
ident key named `n`. -/
theorem keyOf_eq_some {e : Expr} {n : String} (h : keyOf e = some n) :
    ∃ v d, e = Expr.keyValue (.ident n) v d := by
  unfold keyOf at h
  split at h
  · next v d => exact ⟨v, d, by simp_all⟩
  · simp at h

/-- A found existing entry is a keyed entry with an ident key of the
looked-up name. -/
theorem findKV_shape {elts : List Expr} {name : String} {kv : Expr}
    (h : findKV elts name = some kv) :
    ∃ v d, kv = Expr.keyValue (.ident name) v d := by
  have hp := List.find?_some h
  have : keyOf kv = some name := by
    simpa using hp
  exact keyOf_eq_some this

/-- Every rebuilt element is a keyed entry with an ident key named
after its field. -/
theorem keyOf_rebuildElt (cur : String) (elts : List Expr) (f : Nat × String × GoType) :
    keyOf (rebuildElt cur elts f) = some f.2.1 := by
  unfold rebuildElt
  cases h : findKV elts f.2.1 with
  | none => rfl
  | some kv =>
    obtain ⟨v, d, rfl⟩ := findKV_shape h
    rfl

/-- Every rebuilt element is a `KeyValueExpr`. -/
theorem isKV_rebuildElt (cur : String) (elts : List Expr) (f : Nat × String × GoType) :
    isKV (rebuildElt cur elts f) = true := by
  obtain ⟨v, d, h⟩ := keyOf_eq_some (keyOf_rebuildElt cur elts f)
  rw [h]; rfl

/-- The key names of a rebuilt element list are exactly the field
names, in order. -/
theorem keys_rebuild (cur : String) (elts : List Expr) (fs : List (Nat × String × GoType)) :
    (fs.map (rebuildElt cur elts)).filterMap keyOf = fs.map (fun f => f.2.1) := by
  induction fs with
  | nil => rfl
  | cons f fs ih =>
    simp only [List.map_cons, List.filterMap_cons, keyOf_rebuildElt, ih]

/-- A rebuilt element list is all-keyed. -/
theorem isAllKeyed_rebuild (cur : String) (elts : List Expr) (fs : List (Nat × String × GoType)) :
    isAllKeyed (fs.map (rebuildElt cur elts)) = true := by
  unfold isAllKeyed
  rw [List.all_eq_true]
  intro e he
  obtain ⟨f, _, rfl⟩ := List.mem_map.mp he
  exact isKV_rebuildElt cur elts f

/-- Inversion of a successful rewrite: the guards all passed and the
output is the rebuilt element list. -/
theorem processLit_some {cur : String} {tg : List (String × String)} {tv : GoType}
    {elts out : List Expr} (h : processLit cur tg tv elts = some out) :
    ∃ fields namedId, resolveStructType tv = some (fields, namedId) ∧
      matchesTarget tg namedId = true ∧ isAllKeyed elts = true ∧
      ((allFields fields).all (fun f => (presentNames elts).contains f.2.1)) = false ∧
      out = (allFields fields).map (rebuildElt cur elts) := by
  unfold processLit at h
  split at h
  · exact absurd h (by simp)
  · next fields namedId heq =>
    refine ⟨fields, namedId, heq, ?_⟩
    split at h
    · next hm =>
      split at h
      · next hk =>
        split at h
        · exact absurd h (by simp)
        · next hmiss =>
          exact ⟨hm, hk, by simpa using hmiss, (Option.some.injEq _ _).mp h.symm⟩
      · exact absurd h (by simp)
    · exact absurd h (by simp)

/-- Running the rewrite on an already-rewritten element list leaves it
unchanged. -/
theorem processLit_idem {cur : String} {tg : List (String × String)} {tv : GoType}
    {elts out : List Expr} (h : processLit cur tg tv elts = some out) :
    processLit cur tg tv out = none := by
  obtain ⟨fields, namedId, hres, hm, _, _, hout⟩ := processLit_some h
  unfold processLit
  rw [hres]
  simp only [hm, if_true]
  rw [hout, isAllKeyed_rebuild]
  simp only [if_true]
  have hall : (allFields fields).all
      (fun f => (presentNames ((allFields fields).map (rebuildElt cur elts))).contains f.2.1) = true := by
    rw [List.all_eq_true]
    intro f hf
    simp only [presentNames, keys_rebuild, List.contains, List.elem_eq_mem, decide_eq_true_eq]
    exact List.mem_map.mpr ⟨f, hf, rfl⟩
  rw [hall, if_pos rfl]

/-- The key names of a successful rewrite's output are exactly the
exported field names in declaration order. -/
theorem processLit_keys {cur : String} {tg : List (String × String)} {tv : GoType}
    {fields : List (String × GoType)} {namedId : Option (Option String × String)}
    {elts out : List Expr}
    (hres : resolveStructType tv = some (fields, namedId))
    (h : processLit cur tg tv elts = some out) :
    out.filterMap keyOf = (allFields fields).map (fun f => f.2.1) := by
  obtain ⟨fields', namedId', hres', _, _, _, hout⟩ := processLit_some h
  rw [hres'] at hres
  simp only [Option.some.injEq, Prod.mk.injEq] at hres
  obtain ⟨rfl, rfl⟩ := hres
  rw [hout, keys_rebuild]

/-! ## Fixtures used by witnesses and counterexamples -/

/-- The `Person` struct of the spec's scenarios and `testdata/simple`. -/
def personFields : List (String × GoType) :=
  [("Name", .basic .string), ("Age", .basic .int)]

/-- The named type `p.Person`. -/
def tvPerson : GoType := .named (some "p") "p" "Person" (.structT personFields)

/-- A keyed entry with own-line decorations. -/
def kvEntry (n : String) (v : Expr) : Expr :=
  .keyValue (.ident n) v ⟨.newLine, .newLine⟩

/-- A three-field struct used to exhibit reordering of existing
entries. -/
def abcFields : List (String × GoType) :=
  [("A", .basic .int), ("B", .basic .int), ("C", .basic .int)]

/-- The named type `p.T` over `abcFields`. -/
def tvABC : GoType := .named (some "p") "p" "T" (.structT abcFields)

/-- A literal of `p.T` listing `C` before `A` (and missing `B`). -/
def eltsCA : List Expr :=
  [kvEntry "C" (.basicLit .int "7"), kvEntry "A" (.basicLit .int "5")]

/-- A struct whose only absent field is unexported. -/
def wFields : List (String × GoType) :=
  [("Name", .basic .string), ("age", .basic .int)]

/-- The named type `p.W` over `wFields`. -/
def tvW : GoType := .named (some "p") "p" "W" (.structT wFields)

/-- A struct with no exported field at all. -/
def uFields : List (String × GoType) := [("age", .basic .int)]

/-- The named type `p.U` over `uFields`. -/
def tvU : GoType := .named (some "p") "p" "U" (.structT uFields)

/-- The `Address` struct of `testdata/nested_struct`. -/
def addressFields : List (String × GoType) := [("City", .basic .string)]

/-- The named type `p.Address`. -/
def tvAddress : GoType := .named (some "p") "p" "Address" (.structT addressFields)

/-- The outer `Person` struct of `testdata/nested_struct`, whose second
field has the named struct type `p.Address`. -/
def nestedFields : List (String × GoType) :=
  [("Name", .basic .string), ("Address", tvAddress)]

/-- The named type of the outer literal of `testdata/nested_struct`. -/
def tvNested : GoType := .named (some "p") "p" "Person" (.structT nestedFields)

/-! ## Claims -/

/-- C1: for every missing field whose type has a matching entry in the
custom-default override table (keyed by canonical identity for named
types, basic-kind name otherwise), the default-value policy synthesizes
exactly the override's replacement identifier, not the structural zero
value. -/
theorem defaultFor_uses_override (t : GoType) (overrides : List (String × String))
    (curPkgPath key repl : String)
    (hkey : overrideKey t = some key)
    (hrepl : overrides.lookup key = some repl) :
    defaultFor t overrides curPkgPath = .ident repl := by
  unfold defaultFor
  rw [hkey]
  show (match overrides.lookup key with
        | some repl => Expr.ident repl
        | none => generateZeroValue t curPkgPath) = Expr.ident repl
  rw [hrepl]

/-- Witness for C1: the override `p.Status=StatusUnknown` yields the
identifier `StatusUnknown` for the named type `p.Status`, whose
structural zero would have been `0`. -/
theorem defaultFor_uses_override_witness :
    defaultFor (.named (some "p") "p" "Status" (.basic .int))
      [("p.Status", "StatusUnknown")] "p" = .ident "StatusUnknown" :=
  defaultFor_uses_override _ _ "p" "p.Status" "StatusUnknown" rfl rfl

/-- C2: whenever a literal is rewritten, the resulting field-entry list
is keyed exactly by the declaring struct's exported field names in
declaration order, regardless of the order fields appeared in the
original literal. -/
theorem rewritten_keys_in_declaration_order {cur : String}
    {tg : List (String × String)} {tv : GoType}
    {fields : List (String × GoType)} {namedId : Option (Option String × String)}
    {elts out : List Expr}
    (hres : resolveStructType tv = some (fields, namedId))
    (h : processLit cur tg tv elts = some out) :
    out.filterMap keyOf = (allFields fields).map (fun f => f.2.1) :=
  processLit_keys hres h

/-- Witness for C2: completing `T\x7bC: 7, A: 5\x7d` yields entries keyed
`A`, `B`, `C` in declaration order. -/
theorem rewritten_keys_in_declaration_order_witness :
    ([kvEntry "A" (.basicLit .int "5"),
      kvEntry "B" (.basicLit .int "0"),
      kvEntry "C" (.basicLit .int "7")].filterMap keyOf)
      = (allFields abcFields).map (fun f => f.2.1) :=
  @rewritten_keys_in_declaration_order "p" [] tvABC abcFields
    (some (some "p", "T")) eltsCA
    [kvEntry "A" (.basicLit .int "5"),
     kvEntry "B" (.basicLit .int "0"),
     kvEntry "C" (.basicLit .int "7")] rfl rfl

/-- C3 counterexample: the literal `T\x7bC: 7, A: 5\x7d` of the struct
`T\x7bA, B, C int\x7d` has its existing keyed entries `C`, `A` re-emitted
as `A`, `C`: the rewriter does reorder existing keyed entries relative
to each other. -/
theorem existing_order_not_preserved_cex :
    (processLit "p" [] tvABC eltsCA).map
        (fun out => (out.filterMap keyOf).filter
          (fun k => (eltsCA.filterMap keyOf).contains k))
      = some ["A", "C"]
    ∧ eltsCA.filterMap keyOf = ["C", "A"]
    ∧ (["A", "C"] : List String) ≠ ["C", "A"] :=
  ⟨rfl, rfl, by decide⟩

/-- C3 (amended): when inserting new entries the rewriter re-sorts the
already-present keyed entries into the declaring struct's field
declaration order; their original relative order is preserved exactly
when they already appeared in declaration order. -/
theorem existing_entries_in_canonical_order {cur : String}
    {tg : List (String × String)} {tv : GoType}
    {fields : List (String × GoType)} {namedId : Option (Option String × String)}
    {elts out : List Expr}
    (hres : resolveStructType tv = some (fields, namedId))
    (h : processLit cur tg tv elts = some out) :
    (out.filterMap keyOf).filter (fun k => (presentNames elts).contains k)
      = ((allFields fields).map (fun f => f.2.1)).filter
          (fun k => (presentNames elts).contains k) := by
  rw [processLit_keys hres h]

/-- Witness for C3 (amended): for `T\x7bC: 7, A: 5\x7d` the present keys
come out as `A`, `C` — the canonical order restricted to the present
keys. -/
theorem existing_entries_in_canonical_order_witness :
    (([kvEntry "A" (.basicLit .int "5"),
       kvEntry "B" (.basicLit .int "0"),
       kvEntry "C" (.basicLit .int "7")].filterMap keyOf).filter
        (fun k => (presentNames eltsCA).contains k))
      = (((allFields abcFields).map (fun f => f.2.1)).filter
          (fun k => (presentNames eltsCA).contains k)) :=
  @existing_entries_in_canonical_order "p" [] tvABC abcFields
    (some (some "p", "T")) eltsCA
    [kvEntry "A" (.basicLit .int "5"),
     kvEntry "B" (.basicLit .int "0"),
     kvEntry "C" (.basicLit .int "7")] rfl rfl

/-- C4: a literal containing at least one positional (non-keyed)
element is never rewritten, no matter how many exported fields are
absent: the site contributes no change. -/
theorem positional_literal_unchanged {cur : String} {tg : List (String × String)}
    {tv : GoType} {elts : List Expr} {e : Expr}
    (he : e ∈ elts) (hkv : isKV e = false) :
    processLit cur tg tv elts = none := by
  have hak : isAllKeyed elts = false := by
    unfold isAllKeyed
    exact List.all_eq_false.mpr ⟨e, he, by simp [hkv]⟩
  unfold processLit
  cases hres : resolveStructType tv with
  | none => rfl
  | some p =>
    obtain ⟨fields, namedId⟩ := p
    by_cases hm : matchesTarget tg namedId <;> simp [hm, hak]

/-- Witness for C4: the positional literal `Person\x7b"Alice", 25\x7d` is
left unchanged although both fields are "logically" missing from the
keyed-entry point of view. -/
theorem positional_literal_unchanged_witness :
    processLit "p" [] tvPerson
      [Expr.basicLit .string "\"Alice\"", Expr.basicLit .int "25"] = none :=
  positional_literal_unchanged (e := Expr.basicLit .string "\"Alice\"")
    (by simp) rfl

/-- C5: when every exported field of the resolved struct type is
already present in the literal, the engine reports the site unchanged;
absent unexported fields never count as missing and never cause a
rewrite by themselves. -/
theorem complete_literal_unchanged {cur : String} {tg : List (String × String)}
    {tv : GoType} {fields : List (String × GoType)}
    {namedId : Option (Option String × String)} {elts : List Expr}
    (hres : resolveStructType tv = some (fields, namedId))
    (hall : ∀ f ∈ allFields fields, (presentNames elts).contains f.2.1 = true) :
    processLit cur tg tv elts = none := by
  unfold processLit
  rw [hres]
  have h : (allFields fields).all (fun f => (presentNames elts).contains f.2.1) = true :=
    List.all_eq_true.mpr (by intro f hf; simpa using hall f hf)
  by_cases hm : matchesTarget tg namedId = true
  · by_cases hk : isAllKeyed elts = true
    · simp only [hm, hk, if_true]
      rw [if_pos h]
    · simp [hm, hk]
  · simp [hm]

/-- Witness for C5: `W\x7bName: ""\x7d` is unchanged even though the
unexported field `age` is absent. -/
theorem complete_literal_unchanged_witness :
    processLit "p" [] tvW [kvEntry "Name" (.basicLit .string "\"\"")] = none :=
  @complete_literal_unchanged "p" [] tvW wFields (some (some "p", "W"))
    [kvEntry "Name" (.basicLit .string "\"\"")] rfl (by decide)

/-- C6: for pointer, slice, map, channel, function-signature and
interface kinds the synthesized zero value is the identifier `nil`. -/
theorem nil_kinds_zero_value (cur : String) (e k v : GoType) :
    generateZeroValue (.pointer e) cur = .ident "nil"
    ∧ generateZeroValue (.slice e) cur = .ident "nil"
    ∧ generateZeroValue (.mapT k v) cur = .ident "nil"
    ∧ generateZeroValue (.chan e) cur = .ident "nil"
    ∧ generateZeroValue .signature cur = .ident "nil"
    ∧ generateZeroValue .interfaceT cur = .ident "nil" :=
  ⟨rfl, rfl, rfl, rfl, rfl, rfl⟩

/-- C7: a literal whose resolved type (after unwrapping at most one
pointer) is a struct is a candidate whenever the target set is empty;
with a non-empty target set it is a candidate exactly when its resolved
named identity equals some target by (package path, type name)
equality — so an anonymous struct (no named identity) is never a
candidate then. -/
theorem candidate_matching {tv : GoType} {fields : List (String × GoType)}
    {namedId : Option (Option String × String)} (targets : List (String × String))
    (hres : resolveStructType tv = some (fields, namedId)) :
    (targets = [] → matchesTarget targets namedId = true)
    ∧ (targets ≠ [] →
        (matchesTarget targets namedId = true ↔
          ∃ pkgPath n, namedId = some (pkgPath, n) ∧
            ∃ tg ∈ targets, pkgPath = some tg.1 ∧ n = tg.2)) := by
  constructor
  · intro h; subst h; rfl
  · intro hne
    unfold matchesTarget
    rw [if_neg (by simpa using hne)]
    cases namedId with
    | none => simp
    | some pn =>
      obtain ⟨pp, n⟩ := pn
      simp only [List.any_eq_true, Bool.and_eq_true, beq_iff_eq,
        Option.some.injEq, Prod.mk.injEq]
      constructor
      · rintro ⟨tg, htg, h1, h2⟩
        exact ⟨pp, n, ⟨rfl, rfl⟩, tg, htg, h1, h2⟩
      · rintro ⟨pp', n', ⟨h1, h2⟩, tg, htg, h3, h4⟩
        subst h1; subst h2
        exact ⟨tg, htg, h3, h4⟩

/-- Witness for C7: with target set `[(p, Person)]` the named type
`p.Person` matches by path-and-name equality. -/
theorem candidate_matching_witness :
    matchesTarget [("p", "Person")] (some (some "p", "Person")) = true :=
  ((@candidate_matching tvPerson personFields (some (some "p", "Person"))
      [("p", "Person")] rfl).2 (by decide)).mpr
    ⟨some "p", "Person", rfl, ("p", "Person"), by decide, rfl, rfl⟩

/-- C8: the result of the per-file driver carries an output exactly
when some site changed: `output.isSome = changed`, and in particular an
unchanged file has no output. -/
theorem output_iff_changed (cur : String) (tg : List (String × String))
    (path : String) (sites : List (GoType × List Expr)) :
    (formatFile cur tg path sites).output.isSome
      = (formatFile cur tg path sites).changed := by
  unfold formatFile
  split <;> rfl

/-- C9 counterexample: completing the `nested_struct` literal
`Person\x7bName: ""\x7d` inserts the zero value `Address\x7b\x7d`; the
serialized output, re-parsed by a second run, contains that inserted
empty literal as a new candidate site, and the second run completes it
to `Address\x7bCity: ""\x7d` and reports the file changed — running the
engine a second time on the output of a first run does not yield
changed=false. -/
theorem format_not_idempotent_cex :
    (formatFile "p" [] "f.go"
        [(tvNested, [kvEntry "Name" (.basicLit .string "\"\"")])]).output
      = some [(tvNested,
          [kvEntry "Name" (.basicLit .string "\"\""),
           Expr.keyValue (.ident "Address")
             (.compositeLit (some (.ident "Address")) []) ⟨.newLine, .newLine⟩])]
    ∧ processLit "p" [] tvAddress []
        = some [Expr.keyValue (.ident "City") (.basicLit .string "\"\"")
            ⟨.newLine, .newLine⟩]
    ∧ (formatFile "p" [] "f.go"
        [(tvNested,
          [kvEntry "Name" (.basicLit .string "\"\""),
           Expr.keyValue (.ident "Address")
             (.compositeLit (some (.ident "Address")) []) ⟨.newLine, .newLine⟩]),
         (tvAddress, [])]).changed = true :=
  ⟨rfl, rfl, rfl⟩

/-- C9 (amended): completion is idempotent per rewritten literal: the
element list produced for any literal the first run rewrote contains
every exported field, so re-processing that literal reports no change;
a second run over the serialized file may nevertheless report changed,
because zero-value composite literals inserted by the first run are
themselves new candidate sites that the second run visits. -/
theorem completed_literal_stable {cur : String} {tg : List (String × String)}
    {tv : GoType} {elts out : List Expr}
    (h : processLit cur tg tv elts = some out) :
    processLit cur tg tv out = none :=
  processLit_idem h

/-- Witness for C9 (amended): re-processing the completed form of
`Person\x7b\x7d` reports no change. -/
theorem completed_literal_stable_witness :
    processLit "p" [] tvPerson
      [Expr.keyValue (.ident "Name") (.basicLit .string "\"\"") ⟨.newLine, .newLine⟩,
       Expr.keyValue (.ident "Age") (.basicLit .int "0") ⟨.newLine, .newLine⟩] = none :=
  @completed_literal_stable "p" [] tvPerson []
    [Expr.keyValue (.ident "Name") (.basicLit .string "\"\"") ⟨.newLine, .newLine⟩,
     Expr.keyValue (.ident "Age") (.basicLit .int "0") ⟨.newLine, .newLine⟩] rfl

/-- C10 counterexample: the empty literal `U\x7b\x7d` of a struct whose
only field is unexported is classified all-keyed, yet no field is
inserted and the site reports unchanged — the claim's "counts as
changed" fails for struct types without exported fields. -/
theorem empty_literal_cex :
    isAllKeyed ([] : List Expr) = true
    ∧ processLit "p" [] tvU [] = none
    ∧ (formatFile "p" [] "f.go" [(tvU, [])]).changed = false :=
  ⟨rfl, rfl, rfl⟩

/-- C10 (amended): an empty candidate literal is classified all-keyed
(vacuously), and provided its struct type has at least one exported
field, every exported field is inserted — making the site count as
changed — each inserted entry receiving the default own-line
(new-line before and after) decoration style. -/
theorem empty_literal_filled {cur : String} {tg : List (String × String)}
    {tv : GoType} {fields : List (String × GoType)}
    {namedId : Option (Option String × String)}
    (hres : resolveStructType tv = some (fields, namedId))
    (hm : matchesTarget tg namedId = true)
    (hne : (allFields fields).isEmpty = false) :
    processLit cur tg tv [] =
      some ((allFields fields).map (fun f =>
        .keyValue (.ident f.2.1) (generateZeroValue f.2.2 cur)
          ⟨.newLine, .newLine⟩)) := by
  unfold processLit
  rw [hres]
  simp only [hm, if_true]
  have hmiss : (allFields fields).all
      (fun f => (presentNames ([] : List Expr)).contains f.2.1) = false := by
    cases hfs : allFields fields with
    | nil => rw [hfs] at hne; simp at hne
    | cons f fs => simp [presentNames, List.contains]
  rw [show isAllKeyed ([] : List Expr) = true from rfl, if_pos rfl, hmiss,
    if_neg (by simp)]
  congr 1

/-- Witness for C10 (amended): completing `Person\x7b\x7d` inserts `Name`
and `Age`, own-line decorated. -/
theorem empty_literal_filled_witness :
    processLit "p" [] tvPerson [] =
      some ((allFields personFields).map (fun f =>
        .keyValue (.ident f.2.1) (generateZeroValue f.2.2 "p")
          ⟨.newLine, .newLine⟩)) :=
  @empty_literal_filled "p" [] tvPerson personFields (some (some "p", "Person"))
    rfl rfl (by decide)

end Fillstruct
